import Mathlib

/-!
Shallow embedding of `docker_nginx_daemon.py` (stivio00/docker-nginx-daemon).

Modelling conventions:
* The nginx sites directory is an association list `List (String × String)`
  keyed by hostname (the on-disk file for host `h` is `<dir>/<h>.conf`, a
  bijective image of the host, so the host itself is the key).
* `World` carries the persistent state a reconciliation pass can touch,
  plus trace fields (`certChecks`, `certbotCalls`) recording which domains
  the certificate oracle was consulted for and which certbot invocations
  were attempted; these model the observable side effects of
  `cert_is_valid` / `subprocess.run(["certbot", ...])`.
* `Env` carries the ambient read-only environment: the loaded template,
  the certificate store (`none` = `cert.pem` absent, `some none` = present
  but unparseable, `some (some t)` = parses with expiry timestamp `t`),
  the current UTC time as an integer timestamp, and an oracle saying
  whether a certbot run for a domain exits successfully.
* Python exceptions that propagate (ValueError/KeyError from `str.format`,
  `CalledProcessError` from `check=True`) are modelled as `Except` /
  `Option String` error components; `reload_nginx` catches its own
  exception in the source, so the reload is modelled as an unconditional
  counter increment.
-/

namespace Daemon

/-- ASCII whitespace characters removed by Python `str.strip()`
(space, tab, newline, carriage return, vertical tab, form feed). -/
def pyIsSpace (c : Char) : Bool :=
  (c == ' ') || (c == '\t') || (c == '\n') || (c == '\r') ||
  (c == Char.ofNat 11) || (c == Char.ofNat 12)

/-- Python `str.strip()`: drop leading and trailing whitespace,
as used in `conf_needs_update` (`current.strip() != expected_content.strip()`). -/
def pystrip (s : String) : String :=
  String.mk (((s.data.dropWhile pyIsSpace).reverse.dropWhile pyIsSpace).reverse)

/-- Lookup in an association list (models both `dict.get` on labels and
existence/content of a file in a directory). -/
def lookupStore : List (String × String) → String → Option String
  | [], _ => none
  | p :: rest, k => if p.1 = k then some p.2 else lookupStore rest k

/-- Overwrite-or-create a file in the directory model
(`conf_path.write_text(conf_content)`). -/
def writeStore : List (String × String) → String → String → List (String × String)
  | [], k, v => [(k, v)]
  | p :: rest, k, v => if p.1 = k then (k, v) :: rest else p :: writeStore rest k v

/-- The per-workload record built by `collect_hosts` (name, host, status, ip, port). -/
structure ExportRecord where
  name : String
  host : String
  status : String
  ip : Option String
  port : Option String
deriving DecidableEq

/-- A raw Docker container as seen through `container.attrs`: name, labels,
the port keys of `NetworkSettings.Ports` in iteration order, `IPAddress`,
and the lifecycle status string. -/
structure Container where
  name : String
  labels : List (String × String)
  ports : List String
  ipAddress : Option String
  status : String
deriving DecidableEq

/-- Python `first_port.split("/")[0]`: the prefix of the port key before
the first slash. -/
def portOfKey (k : String) : String :=
  String.mk (k.data.takeWhile (fun c => c != '/'))

/-- One step of `collect_hosts`: extract a record from a container, or skip it.
A container is skipped exactly when its `export-host` label is absent or
empty (`if not host: continue`); `status` is only copied, never inspected. -/
def toRecord (c : Container) : Option ExportRecord :=
  match lookupStore c.labels "export-host" with
  | none => none
  | some host =>
    if host = "" then none
    else
      some { name := c.name
             host := host
             status := c.status
             ip := c.ipAddress
             port := match c.ports with
                     | [] => none
                     | k :: _ => some (portOfKey k) }

/-- `client.containers.list(all=...)`: with `all=True` every container is
returned; with `all=False` only running ones. The daemon always passes
`all=True`. -/
def containersList (allFlag : Bool) (cs : List Container) : List Container :=
  if allFlag then cs else cs.filter (fun c => c.status == "running")

/-- `collect_hosts()`: iterate over `client.containers.list(all=True)` and
extract a record from every container carrying a non-empty `export-host`
label. -/
def collect_hosts (cs : List Container) : List ExportRecord :=
  (containersList true cs).filterMap toRecord

/-- Scanner state for the model of Python `str.format`. -/
inductive FmtSt where
  | out
  | sawL
  | sawR
  | fld (acc : List Char)

/-- Opening curly brace character. -/
def lbr : Char := Char.ofNat 123

/-- Closing curly brace character. -/
def rbr : Char := Char.ofNat 125

/-- Keyword lookup for the three arguments the daemon passes to
`NGINX_TEMPLATE.format(server_name=..., container_ip=..., container_port=...)`.
Any other field name raises (KeyError in CPython, IndexError for the empty
auto-numbered field since no positional arguments are supplied). -/
def substArg (sn ip pt : String) (nm : String) : Option String :=
  if nm = "server_name" then some sn
  else if nm = "container_ip" then some ip
  else if nm = "container_port" then some pt
  else none

/-- Character-by-character model of CPython `str.format` restricted to the
call shape used by the daemon (three keyword arguments, no conversions or
format specs — none appear in the placeholders the program substitutes).
Doubled braces are literals; a single closing brace raises ValueError; a
brace inside a field name raises ValueError; an unknown or empty field
name raises (KeyError/IndexError). Unused keyword arguments are ignored,
as in CPython. -/
def fmtGo (sn ip pt : String) : List Char → FmtSt → Except String (List Char)
  | [], .out => .ok []
  | [], .sawL => .error "Single opening brace encountered in format string"
  | [], .sawR => .error "Single closing brace encountered in format string"
  | [], .fld _ => .error "expected closing brace before end of string"
  | c :: rest, .out =>
    if c = lbr then fmtGo sn ip pt rest .sawL
    else if c = rbr then fmtGo sn ip pt rest .sawR
    else (fun t => c :: t) <$> fmtGo sn ip pt rest .out
  | c :: rest, .sawL =>
    if c = lbr then (fun t => lbr :: t) <$> fmtGo sn ip pt rest .out
    else if c = rbr then .error "replacement index out of range for positional args"
    else fmtGo sn ip pt rest (.fld [c])
  | c :: rest, .sawR =>
    if c = rbr then (fun t => rbr :: t) <$> fmtGo sn ip pt rest .out
    else .error "Single closing brace encountered in format string"
  | c :: rest, .fld acc =>
    if c = rbr then
      match substArg sn ip pt (String.mk acc.reverse) with
      | some v => (fun t => v.data ++ t) <$> fmtGo sn ip pt rest .out
      | none => .error "unexpected or unknown field name"
    else if c = lbr then .error "unexpected opening brace in field name"
    else fmtGo sn ip pt rest (.fld (c :: acc))

/-- `template.format(server_name=sn, container_ip=ip, container_port=pt)`. -/
def pyformat (template sn ip pt : String) : Except String String :=
  (fun l => String.mk l) <$> fmtGo sn ip pt template.data .out

/-- The state a reconciliation pass reads and writes: the sites directory
(association list keyed by host), whether `mkdir` has been performed, and
the traces of certificate-oracle consultations and certbot invocations. -/
structure World where
  configs : List (String × String)
  dirMade : Bool
  certChecks : List String
  certbotCalls : List String
deriving DecidableEq

/-- Ambient read-only environment of a pass (see module docstring). -/
structure Env where
  template : String
  cert : String → Option (Option Int)
  now : Int
  issueOk : String → Bool

/-- `cert_is_valid(domain)`: false if `cert.pem` is absent; false if any
step of decoding/parsing raises (the bare `except Exception` branch);
true iff the parsed expiry is strictly later than `datetime.utcnow()`. -/
def cert_is_valid (env : Env) (domain : String) : Bool :=
  match env.cert domain with
  | some (some expiry) => decide (env.now < expiry)
  | _ => false

/-- `conf_needs_update(host, expected_content)`: true if the conf file does
not exist, else true iff the stripped current content differs from the
stripped expected content. -/
def conf_needs_update (configs : List (String × String)) (host expected : String) : Bool :=
  match lookupStore configs host with
  | none => true
  | some current => pystrip current != pystrip expected

/-- The per-host body of the loop in `generate_nginx_conf`: write the file
when `conf_needs_update` holds, else leave it untouched. The Bool reports
whether a write occurred. -/
def reconcile_one (w : World) (host content : String) : World × Bool :=
  if conf_needs_update w.configs host content then
    ({ w with configs := writeStore w.configs host content }, true)
  else (w, false)

/-- Python `entry["ip"]` interpolated by `format`: `str(None)` is the text
"None" when the container has no IP address. -/
def ipStr : Option String → String
  | some s => s
  | none => "None"

/-- Python `entry["port"] or "80"`: the default port applies when the port
is `None` or the empty string (falsy). -/
def portStr : Option String → String
  | some p => if p = "" then "80" else p
  | none => "80"

/-- Render the config content for one record:
`NGINX_TEMPLATE.format(server_name=entry["host"], container_ip=entry["ip"],
container_port=entry["port"] or "80")`. -/
def renderEntry (env : Env) (e : ExportRecord) : Except String String :=
  pyformat env.template e.host (ipStr e.ip) (portStr e.port)

/-- Result of `generate_nginx_conf`: the final world, the number of file
writes performed, and the uncaught exception (if rendering raised). -/
structure GenOut where
  world : World
  written : Nat
  err : Option String
deriving DecidableEq

/-- The loop of `generate_nginx_conf`: render each entry and write on
divergence; a render exception propagates immediately, keeping the writes
already performed. -/
def genLoop (env : Env) : List ExportRecord → World → Nat → GenOut
  | [], w, n => ⟨w, n, none⟩
  | e :: rest, w, n =>
    match renderEntry env e with
    | .error msg => ⟨w, n, some msg⟩
    | .ok content =>
      let r := reconcile_one w e.host content
      genLoop env rest r.1 (if r.2 then n + 1 else n)

/-- `generate_nginx_conf(exported_hosts)`: `mkdir(parents=True, exist_ok=True)`
then the per-host loop. -/
def generate_nginx_conf (env : Env) (hosts : List ExportRecord) (w : World) : GenOut :=
  genLoop env hosts { w with dirMade := true } 0

/-- The loop of `obtain_certificates`: each host's domain is first checked
with `cert_is_valid` (recorded in `certChecks`); if invalid, certbot is
invoked (recorded in `certbotCalls`) with `check=True`, so a failing
invocation raises `CalledProcessError`, which is uncaught and aborts the
loop — remaining hosts are not processed. -/
def certLoop (env : Env) : List ExportRecord → World → World × Option String
  | [], w => (w, none)
  | e :: rest, w =>
    let w1 := { w with certChecks := w.certChecks ++ [e.host] }
    if cert_is_valid env e.host then certLoop env rest w1
    else
      let w2 := { w1 with certbotCalls := w1.certbotCalls ++ [e.host] }
      if env.issueOk e.host then certLoop env rest w2
      else (w2, some ("certbot exited nonzero for " ++ e.host))

/-- `obtain_certificates(exported_hosts)`. -/
def obtain_certificates (env : Env) (hosts : List ExportRecord) (w : World) :
    World × Option String :=
  certLoop env hosts w

/-- Result of one `reconcile()` call: final world, config writes performed,
number of reload invocations, and the uncaught exception if one propagated. -/
structure PassOut where
  world : World
  written : Nat
  reloaded : Nat
  err : Option String
deriving DecidableEq

/-- `reconcile()`: collect hosts (taken here as the parameter), return at
once if the list is empty, else `generate_nginx_conf` then `reload_nginx`
(which catches its own `CalledProcessError`, so it is an unconditional
invocation) then `obtain_certificates`. -/
def reconcile (env : Env) (hosts : List ExportRecord) (w : World) : PassOut :=
  match hosts with
  | [] => ⟨w, 0, 0, none⟩
  | _ :: _ =>
    let g := generate_nginx_conf env hosts w
    match g.err with
    | some msg => ⟨g.world, g.written, 0, some msg⟩
    | none =>
      let oc := obtain_certificates env hosts g.world
      ⟨oc.1, g.written, 1, oc.2⟩

/-! ### Concrete instances used in counterexamples and witnesses -/

/-- A well-formed custom template mentioning all three placeholders. -/
def tpl0 : String := "s=\x7bserver_name\x7d i=\x7bcontainer_ip\x7d p=\x7bcontainer_port\x7d"

/-- Empty initial world: no config files, directory not yet created. -/
def w0 : World := ⟨[], false, [], []⟩

/-- A running container record exporting host "a" at address 1. -/
def recA : ExportRecord := ⟨"c1", "a", "running", some "1", some "8080"⟩

/-- A running container record exporting host "b" at address 2. -/
def recB : ExportRecord := ⟨"c2", "b", "running", some "2", some "8080"⟩

/-- A second record for the same host "a" with a different address. -/
def recA2 : ExportRecord := ⟨"c3", "a", "running", some "2", some "8080"⟩

/-- Environment with no certificates on disk and certbot succeeding. -/
def envA : Env := ⟨tpl0, fun _ => none, 0, fun _ => true⟩

/-- Environment with no certificates on disk and certbot failing. -/
def envB : Env := ⟨tpl0, fun _ => none, 0, fun _ => false⟩

/-- Environment whose certificates all parse with expiry equal to now. -/
def envT : Env := ⟨tpl0, fun _ => some (some 5), 5, fun _ => true⟩

/-- Environment whose certificates all parse with expiry one second after now. -/
def envU : Env := ⟨tpl0, fun _ => some (some 6), 5, fun _ => true⟩

/-- Environment whose certificate files exist but cannot be parsed. -/
def envP : Env := ⟨tpl0, fun _ => some none, 0, fun _ => true⟩

/-- A world holding a config file for a host that is no longer declared. -/
def wStale : World := ⟨[("old", "stale")], true, [], []⟩

/-- The world after a first reconciliation pass over `[recA]` from `w0`. -/
def wAfterFirst : World := (reconcile envA [recA] w0).world

/-- A stopped (exited) container carrying the export label. -/
def cStopped : Container :=
  ⟨"c9", [("export-host", "h.example")], ["8080/tcp"], some "3", "exited"⟩

/-! ### Store lemmas -/

theorem lookupStore_writeStore_self (s : List (String × String)) (k v : String) :
    lookupStore (writeStore s k v) k = some v := by
  induction s with
  | nil => simp [writeStore, lookupStore]
  | cons p rest ih =>
    by_cases h : p.1 = k
    · simp [writeStore, h, lookupStore]
    · simp [writeStore, h, lookupStore, ih]

theorem lookupStore_writeStore_ne (s : List (String × String)) (k v k' : String)
    (h : k' ≠ k) : lookupStore (writeStore s k v) k' = lookupStore s k' := by
  have hk : ¬(k = k') := fun hh => h hh.symm
  induction s with
  | nil => simp [writeStore, lookupStore, hk]
  | cons p rest ih =>
    by_cases hp : p.1 = k
    · simp [writeStore, hp, lookupStore, hk]
    · by_cases hp' : p.1 = k'
      · rw [writeStore, if_neg hp]
        simp [lookupStore, hp']
      · rw [writeStore, if_neg hp]
        simp [lookupStore, hp', ih]

theorem mem_keys_writeStore (s : List (String × String)) (k v a : String) :
    a ∈ (writeStore s k v).map Prod.fst → a ∈ s.map Prod.fst ∨ a = k := by
  induction s with
  | nil => intro h; simpa [writeStore] using h
  | cons p rest ih =>
    intro h
    by_cases hp : p.1 = k
    · rw [writeStore, if_pos hp] at h
      simp only [List.map_cons, List.mem_cons] at h ⊢
      tauto
    · rw [writeStore, if_neg hp] at h
      simp only [List.map_cons, List.mem_cons] at h ⊢
      rcases h with h1 | h2
      · tauto
      · rcases ih h2 with h3 | h3 <;> tauto

theorem writeStore_keys_nodup (s : List (String × String)) (k v : String) :
    (s.map Prod.fst).Nodup → ((writeStore s k v).map Prod.fst).Nodup := by
  induction s with
  | nil => intro _; simp [writeStore]
  | cons p rest ih =>
    intro h
    rw [List.map_cons, List.nodup_cons] at h
    by_cases hp : p.1 = k
    · rw [writeStore, if_pos hp]
      rw [List.map_cons, List.nodup_cons]
      exact ⟨fun hm => h.1 (hp ▸ hm), h.2⟩
    · rw [writeStore, if_neg hp]
      rw [List.map_cons, List.nodup_cons]
      refine ⟨fun hmem => ?_, ih h.2⟩
      rcases mem_keys_writeStore rest k v p.1 hmem with h' | h'
      · exact h.1 h'
      · exact hp h'

theorem countKey_eq_one (s : List (String × String)) (k v : String) :
    (s.map Prod.fst).Nodup → lookupStore s k = some v →
    (s.filter (fun p => p.1 == k)).length = 1 := by
  induction s with
  | nil => intro _ h; simp [lookupStore] at h
  | cons p rest ih =>
    intro hnd h
    rw [List.map_cons, List.nodup_cons] at hnd
    by_cases hp : p.1 = k
    · have hrest : rest.filter (fun q => q.1 == k) = [] := by
        refine List.filter_eq_nil_iff.mpr ?_
        intro q hq
        simp only [beq_iff_eq]
        intro hqk
        exact hnd.1 (hp ▸ List.mem_map.mpr ⟨q, hq, hqk⟩)
      have hpb : (p.1 == k) = true := by simpa using hp
      simp [List.filter_cons, hpb, hrest]
    · simp only [lookupStore, if_neg hp] at h
      have hpb : (p.1 == k) = false := by simpa using hp
      simp [List.filter_cons, hpb, ih hnd.2 h]

/-! ### Per-host reconciler lemmas -/

theorem conf_needs_update_eq_true_iff (configs : List (String × String))
    (host expected : String) :
    conf_needs_update configs host expected = true ↔
      (lookupStore configs host = none ∨
       ∃ cur, lookupStore configs host = some cur ∧ pystrip cur ≠ pystrip expected) := by
  unfold conf_needs_update
  cases hl : lookupStore configs host with
  | none => simp
  | some cur => simp [bne_iff_ne]

theorem conf_needs_update_eq_false (configs : List (String × String))
    (host expected : String) (h : conf_needs_update configs host expected = false) :
    ∃ cur, lookupStore configs host = some cur ∧ pystrip cur = pystrip expected := by
  unfold conf_needs_update at h
  cases hl : lookupStore configs host with
  | none => rw [hl] at h; simp at h
  | some cur =>
    rw [hl] at h
    refine ⟨cur, rfl, ?_⟩
    simpa [bne_iff_ne] using h

theorem reconcile_one_lookup_self (w : World) (host content : String) :
    ∃ cur, lookupStore (reconcile_one w host content).1.configs host = some cur ∧
      pystrip cur = pystrip content := by
  unfold reconcile_one
  by_cases h : conf_needs_update w.configs host content
  · rw [if_pos h]
    exact ⟨content, lookupStore_writeStore_self _ _ _, rfl⟩
  · rw [if_neg h]
    exact conf_needs_update_eq_false _ _ _ (by simpa using h)

theorem reconcile_one_lookup_ne (w : World) (host content h' : String)
    (hne : h' ≠ host) :
    lookupStore (reconcile_one w host content).1.configs h' = lookupStore w.configs h' := by
  unfold reconcile_one
  by_cases h : conf_needs_update w.configs host content
  · rw [if_pos h]
    exact lookupStore_writeStore_ne _ _ _ _ hne
  · rw [if_neg h]

theorem reconcile_one_no_write (w : World) (host content : String)
    (h : (reconcile_one w host content).2 = false) :
    (reconcile_one w host content).1 = w := by
  unfold reconcile_one at h ⊢
  by_cases hc : conf_needs_update w.configs host content
  · rw [if_pos hc] at h; simp at h
  · rw [if_neg hc]

theorem reconcile_one_keys_nodup (w : World) (host content : String)
    (h : (w.configs.map Prod.fst).Nodup) :
    ((reconcile_one w host content).1.configs.map Prod.fst).Nodup := by
  unfold reconcile_one
  by_cases hc : conf_needs_update w.configs host content
  · rw [if_pos hc]
    exact writeStore_keys_nodup _ _ _ h
  · rw [if_neg hc]; exact h

/-! ### Config-generation loop lemmas -/

theorem genLoop_lookup_ne (env : Env) (hosts : List ExportRecord) :
    ∀ (w : World) (n : Nat) (h : String), (∀ e ∈ hosts, e.host ≠ h) →
      lookupStore (genLoop env hosts w n).world.configs h = lookupStore w.configs h := by
  induction hosts with
  | nil => intro w n h _; rfl
  | cons e rest ih =>
    intro w n h hh
    unfold genLoop
    cases hr : renderEntry env e with
    | error msg => rfl
    | ok content =>
      rw [ih _ _ h (fun x hx => hh x (List.mem_cons_of_mem _ hx))]
      exact reconcile_one_lookup_ne w e.host content h
        (Ne.symm (hh e (List.mem_cons_self _ _)))

theorem genLoop_err_none (env : Env) (hosts : List ExportRecord) :
    ∀ (w : World) (n : Nat), (∀ e ∈ hosts, ∃ c, renderEntry env e = .ok c) →
      (genLoop env hosts w n).err = none := by
  induction hosts with
  | nil => intro w n _; rfl
  | cons e rest ih =>
    intro w n hok
    obtain ⟨c, hc⟩ := hok e (List.mem_cons_self _ _)
    unfold genLoop
    rw [hc]
    exact ih _ _ (fun x hx => hok x (List.mem_cons_of_mem _ hx))

theorem genLoop_keys_nodup (env : Env) (hosts : List ExportRecord) :
    ∀ (w : World) (n : Nat), (w.configs.map Prod.fst).Nodup →
      ((genLoop env hosts w n).world.configs.map Prod.fst).Nodup := by
  induction hosts with
  | nil => intro w n h; exact h
  | cons e rest ih =>
    intro w n h
    unfold genLoop
    cases hr : renderEntry env e with
    | error msg => exact h
    | ok content => exact ih _ _ (reconcile_one_keys_nodup w e.host content h)

theorem genLoop_nowrite (env : Env) (hosts : List ExportRecord) :
    ∀ (w : World) (n : Nat),
      (∀ e ∈ hosts, ∃ cur r, renderEntry env e = .ok r ∧
        lookupStore w.configs e.host = some cur ∧ pystrip cur = pystrip r) →
      genLoop env hosts w n = ⟨w, n, none⟩ := by
  induction hosts with
  | nil => intro w n _; rfl
  | cons e rest ih =>
    intro w n hpre
    obtain ⟨cur, r, hr, hl, hs⟩ := hpre e (List.mem_cons_self _ _)
    have hneed : conf_needs_update w.configs e.host r = false := by
      unfold conf_needs_update
      rw [hl]
      simpa [bne_iff_ne] using hs
    have hro : reconcile_one w e.host r = (w, false) := by
      unfold reconcile_one
      rw [hneed]
      simp
    unfold genLoop
    rw [hr]
    show genLoop env rest (reconcile_one w e.host r).1
        (if (reconcile_one w e.host r).2 = true then n + 1 else n) = ⟨w, n, none⟩
    rw [hro]
    simpa using ih _ _ (fun x hx => hpre x (List.mem_cons_of_mem _ hx))

theorem genLoop_post (env : Env) (hosts : List ExportRecord) :
    ∀ (w : World) (n : Nat), (hosts.map ExportRecord.host).Nodup →
      (∀ e ∈ hosts, ∃ c, renderEntry env e = .ok c) →
      ∀ e ∈ hosts, ∃ cur r, renderEntry env e = .ok r ∧
        lookupStore (genLoop env hosts w n).world.configs e.host = some cur ∧
        pystrip cur = pystrip r := by
  induction hosts with
  | nil => intro w n _ _ e he; exact absurd he (List.not_mem_nil _)
  | cons e0 rest ih =>
    intro w n hnd hok e he
    rw [List.map_cons, List.nodup_cons] at hnd
    obtain ⟨c0, hc0⟩ := hok e0 (List.mem_cons_self _ _)
    unfold genLoop
    rw [hc0]
    rcases List.mem_cons.mp he with rfl | he'
    · obtain ⟨cur, hcur, hscur⟩ := reconcile_one_lookup_self w e.host c0
      refine ⟨cur, c0, hc0, ?_, hscur⟩
      rw [genLoop_lookup_ne env rest _ _ e.host ?_]
      · exact hcur
      · intro x hx hxh
        exact hnd.1 (List.mem_map.mpr ⟨x, hx, hxh⟩)
    · exact ih _ _ hnd.2 (fun x hx => hok x (List.mem_cons_of_mem _ hx)) e he'

/-! ### Certificate loop lemmas -/

theorem certLoop_configs (env : Env) (hosts : List ExportRecord) :
    ∀ w : World, (certLoop env hosts w).1.configs = w.configs := by
  induction hosts with
  | nil => intro w; rfl
  | cons e rest ih =>
    intro w
    unfold certLoop
    by_cases hv : cert_is_valid env e.host
    · rw [if_pos hv]; exact ih _
    · rw [if_neg hv]
      by_cases hi : env.issueOk e.host
      · rw [if_pos hi]; exact ih _
      · rw [if_neg hi]

theorem certLoop_abort (env : Env) (pre : List ExportRecord) :
    ∀ (e : ExportRecord) (post : List ExportRecord) (w : World),
      (∀ e' ∈ pre, cert_is_valid env e'.host = true ∨ env.issueOk e'.host = true) →
      cert_is_valid env e.host = false →
      env.issueOk e.host = false →
      (certLoop env (pre ++ e :: post) w).2.isSome = true ∧
      (certLoop env (pre ++ e :: post) w).1.certChecks =
        w.certChecks ++ pre.map (fun r => r.host) ++ [e.host] := by
  induction pre with
  | nil =>
    intro e post w _ hv hi
    rw [List.nil_append]
    unfold certLoop
    rw [if_neg (by simp [hv]), if_neg (by simp [hi])]
    simp
  | cons p pre' ih =>
    intro e post w hpre hv hi
    have hp := hpre p (List.mem_cons_self _ _)
    have hrest : ∀ e' ∈ pre', cert_is_valid env e'.host = true ∨ env.issueOk e'.host = true :=
      fun x hx => hpre x (List.mem_cons_of_mem _ hx)
    rw [List.cons_append]
    unfold certLoop
    by_cases hvp : cert_is_valid env p.host
    · rw [if_pos hvp]
      obtain ⟨h1, h2⟩ := ih e post _ hrest hv hi
      refine ⟨h1, ?_⟩
      rw [h2]
      simp
    · have hip : env.issueOk p.host = true := by
        rcases hp with hp | hp
        · exact absurd hp (by simpa using hvp)
        · exact hp
      rw [if_neg hvp, if_pos hip]
      obtain ⟨h1, h2⟩ := ih e post _ hrest hv hi
      refine ⟨h1, ?_⟩
      rw [h2]
      simp

/-! ### Loop decomposition lemmas -/

theorem genLoop_cons (env : Env) (e : ExportRecord) (rest : List ExportRecord)
    (w : World) (n : Nat) (c : String) (hc : renderEntry env e = .ok c) :
    genLoop env (e :: rest) w n =
      genLoop env rest (reconcile_one w e.host c).1
        (if (reconcile_one w e.host c).2 then n + 1 else n) := by
  conv_lhs => unfold genLoop
  rw [hc]

theorem genLoop_append (env : Env) (xs : List ExportRecord) :
    ∀ (ys : List ExportRecord) (w : World) (n : Nat),
      (∀ e ∈ xs, ∃ c, renderEntry env e = .ok c) →
      genLoop env (xs ++ ys) w n =
        genLoop env ys (genLoop env xs w n).world (genLoop env xs w n).written := by
  induction xs with
  | nil => intro ys w n _; rfl
  | cons e rest ih =>
    intro ys w n hok
    obtain ⟨c, hc⟩ := hok e (List.mem_cons_self _ _)
    rw [List.cons_append, genLoop_cons env e (rest ++ ys) w n c hc,
        genLoop_cons env e rest w n c hc]
    exact ih ys _ _ (fun x hx => hok x (List.mem_cons_of_mem _ hx))

theorem reconcile_one_lookup_self' (w : World) (host content k : String)
    (hk : host = k) :
    ∃ cur, lookupStore (reconcile_one w host content).1.configs k = some cur ∧
      pystrip cur = pystrip content := by
  subst hk
  exact reconcile_one_lookup_self w host content

theorem reconcile_one_overwrite (w : World) (host content : String)
    (hcur : ∃ cur, lookupStore w.configs host = some cur ∧
      pystrip cur ≠ pystrip content) :
    lookupStore (reconcile_one w host content).1.configs host = some content := by
  obtain ⟨cur, hc, hne⟩ := hcur
  have hneed : conf_needs_update w.configs host content = true := by
    unfold conf_needs_update
    rw [hc]
    exact bne_iff_ne.mpr hne
  unfold reconcile_one
  rw [if_pos hneed]
  exact lookupStore_writeStore_self _ _ _

/-! ### Reconcile pass unfolding lemmas -/

theorem reconcile_of_err_none (env : Env) (hosts : List ExportRecord) (w : World)
    (hne : hosts ≠ []) (herr : (generate_nginx_conf env hosts w).err = none) :
    reconcile env hosts w =
      ⟨(obtain_certificates env hosts (generate_nginx_conf env hosts w).world).1,
       (generate_nginx_conf env hosts w).written, 1,
       (obtain_certificates env hosts (generate_nginx_conf env hosts w).world).2⟩ := by
  cases hosts with
  | nil => exact absurd rfl hne
  | cons e rest =>
    show (match (generate_nginx_conf env (e :: rest) w).err with
      | some msg => (⟨(generate_nginx_conf env (e :: rest) w).world,
          (generate_nginx_conf env (e :: rest) w).written, 0, some msg⟩ : PassOut)
      | none =>
          ⟨(obtain_certificates env (e :: rest)
              (generate_nginx_conf env (e :: rest) w).world).1,
           (generate_nginx_conf env (e :: rest) w).written, 1,
           (obtain_certificates env (e :: rest)
              (generate_nginx_conf env (e :: rest) w).world).2⟩) = _
    rw [herr]

theorem reconcile_of_err_some (env : Env) (hosts : List ExportRecord) (w : World)
    (msg : String) (hne : hosts ≠ [])
    (herr : (generate_nginx_conf env hosts w).err = some msg) :
    reconcile env hosts w =
      ⟨(generate_nginx_conf env hosts w).world,
       (generate_nginx_conf env hosts w).written, 0, some msg⟩ := by
  cases hosts with
  | nil => exact absurd rfl hne
  | cons e rest =>
    show (match (generate_nginx_conf env (e :: rest) w).err with
      | some m => (⟨(generate_nginx_conf env (e :: rest) w).world,
          (generate_nginx_conf env (e :: rest) w).written, 0, some m⟩ : PassOut)
      | none =>
          ⟨(obtain_certificates env (e :: rest)
              (generate_nginx_conf env (e :: rest) w).world).1,
           (generate_nginx_conf env (e :: rest) w).written, 1,
           (obtain_certificates env (e :: rest)
              (generate_nginx_conf env (e :: rest) w).world).2⟩) = _
    rw [herr]

theorem reconcile_configs_of_ok (env : Env) (hosts : List ExportRecord) (w : World)
    (hne : hosts ≠ []) (herr : (generate_nginx_conf env hosts w).err = none) :
    (reconcile env hosts w).world.configs =
      (genLoop env hosts { w with dirMade := true } 0).world.configs := by
  rw [reconcile_of_err_none env hosts w hne herr]
  show (obtain_certificates env hosts (generate_nginx_conf env hosts w).world).1.configs = _
  rw [show obtain_certificates env hosts (generate_nginx_conf env hosts w).world
      = certLoop env hosts (generate_nginx_conf env hosts w).world from rfl]
  rw [certLoop_configs]
  rfl

theorem fmtGo_no_braces (sn ip pt : String) :
    ∀ l : List Char, (∀ c ∈ l, c ≠ lbr ∧ c ≠ rbr) →
      fmtGo sn ip pt l .out = .ok l := by
  intro l
  induction l with
  | nil => intro _; rfl
  | cons c rest ih =>
    intro h
    obtain ⟨h1, h2⟩ := h c (List.mem_cons_self _ _)
    unfold fmtGo
    rw [if_neg h1, if_neg h2, ih (fun x hx => h x (List.mem_cons_of_mem _ hx))]
    rfl

/-! ## Claim theorems -/

/-- C4 (counterexample): the claim says rendering against a custom template
that lacks the required placeholders raises a configuration error. It is
false: `str.format` silently ignores unused keyword arguments, so the
template "hello", which contains none of the three placeholders, renders
without any error, returning the template text unchanged. -/
theorem missing_placeholder_silent_cex :
    pyformat "hello" "a" "1" "80" = Except.ok "hello" := rfl

/-- C4 (amended): rendering against a custom template that lacks required
placeholders does NOT raise: any template without replacement fields (no
brace characters) renders successfully to itself, the missing
substitutions being silently ignored, exactly as CPython `str.format`
treats unused keyword arguments. -/
theorem pyformat_braceless_template_passes_through (t sn ip pt : String)
    (h : ∀ c ∈ t.data, c ≠ lbr ∧ c ≠ rbr) :
    pyformat t sn ip pt = Except.ok t := by
  obtain ⟨data⟩ := t
  unfold pyformat
  rw [fmtGo_no_braces sn ip pt data h]
  rfl

/-- C4 witness: the amended theorem applied to the concrete template "abc". -/
theorem pyformat_braceless_template_passes_through_witness :
    pyformat "abc" "a" "1" "80" = Except.ok "abc" :=
  pyformat_braceless_template_passes_through "abc" "a" "1" "80" (by decide)

/-- C5: the per-host reconciler reports a write exactly when the config
file does not exist or the existing and desired contents differ after
stripping whitespace at both ends (Python `str.strip`, as
`conf_needs_update` does); when the stripped contents agree, no write
occurs and the world is unchanged. -/
theorem reconcile_one_writes_iff_trimmed_difference (w : World) (host content : String) :
    ((reconcile_one w host content).2 = true ↔
      (lookupStore w.configs host = none ∨
       ∃ cur, lookupStore w.configs host = some cur ∧
         pystrip cur ≠ pystrip content)) ∧
    ((reconcile_one w host content).2 = false →
      (reconcile_one w host content).1 = w) := by
  constructor
  · rw [← conf_needs_update_eq_true_iff]
    unfold reconcile_one
    by_cases h : conf_needs_update w.configs host content
    · simp [h]
    · simp [h]
  · exact reconcile_one_no_write w host content

/-- C5 witness: on the empty directory the reconciler writes. -/
theorem reconcile_one_writes_iff_trimmed_difference_witness :
    (reconcile_one w0 "a" "x").2 = true :=
  (reconcile_one_writes_iff_trimmed_difference w0 "a" "x").1.mpr (Or.inl rfl)

/-- C7: for a certificate that exists and parses, validity holds exactly
when the expiry is strictly after the current time; expiry equal to now is
invalid, expiry one second in the future is valid (no renewal margin). -/
theorem cert_is_valid_strict_expiry_boundary (env : Env) (d : String) (e : Int)
    (h : env.cert d = some (some e)) :
    (cert_is_valid env d = true ↔ env.now < e) ∧
    (e = env.now → cert_is_valid env d = false) ∧
    (e = env.now + 1 → cert_is_valid env d = true) := by
  have hv : cert_is_valid env d = decide (env.now < e) := by
    unfold cert_is_valid
    rw [h]
  refine ⟨by simp [hv], fun he => by simp [hv, he], fun he => by simp [hv, he]⟩

/-- C7 witness: with current time 5, an expiry of 5 is invalid and an
expiry of 6 is valid. -/
theorem cert_is_valid_strict_expiry_boundary_witness :
    cert_is_valid envT "a" = false ∧ cert_is_valid envU "a" = true :=
  ⟨(cert_is_valid_strict_expiry_boundary envT "a" 5 rfl).2.1 rfl,
   (cert_is_valid_strict_expiry_boundary envU "a" 6 rfl).2.2 (by decide)⟩

/-- C8: a reconciliation pass over an empty discovery result is a complete
no-op: the world is returned unchanged (no directory creation, no config
writes, no cert checks, no certbot calls), zero writes are counted, zero
reloads are triggered, and no error is raised. -/
theorem reconcile_empty_discovery_noop (env : Env) (w : World) :
    reconcile env [] w = ⟨w, 0, 0, none⟩ := rfl

/-- C9: a certificate file that exists but fails to parse (including an
unparseable expiry field) makes the oracle return false; the Python source
catches every exception in `cert_is_valid`, which is why the embedding is
a total Boolean function and no error value exists to propagate. -/
theorem cert_is_valid_parse_failure_returns_false (env : Env) (d : String)
    (h : env.cert d = some none) : cert_is_valid env d = false := by
  unfold cert_is_valid
  rw [h]

/-- C9 witness: a present-but-corrupt certificate yields false. -/
theorem cert_is_valid_parse_failure_returns_false_witness :
    cert_is_valid envP "a" = false :=
  cert_is_valid_parse_failure_returns_false envP "a" rfl

/-- C10: discovery uses `containers.list(all=True)`, so a container in any
lifecycle state whose `export-host` label is non-empty yields a record
carrying exactly its status; the status value never filters a container
out of the discovery result. -/
theorem collect_hosts_status_never_excludes (cs : List Container) (c : Container)
    (h : String) (hc : c ∈ cs) (hl : lookupStore c.labels "export-host" = some h)
    (hne : h ≠ "") :
    ∃ r ∈ collect_hosts cs, r.host = h ∧ r.status = c.status ∧ r.name = c.name := by
  have ht : toRecord c = some ⟨c.name, h, c.status, c.ipAddress,
      match c.ports with | [] => none | k :: _ => some (portOfKey k)⟩ := by
    unfold toRecord
    rw [hl]
    simp [hne]
  have hcoll : collect_hosts cs = cs.filterMap toRecord := rfl
  refine ⟨⟨c.name, h, c.status, c.ipAddress,
      match c.ports with | [] => none | k :: _ => some (portOfKey k)⟩, ?_, rfl, rfl, rfl⟩
  rw [hcoll]
  exact List.mem_filterMap.mpr ⟨c, hc, ht⟩

/-- C10 witness: an exited container with the label still yields a record. -/
theorem collect_hosts_status_never_excludes_witness :
    ∃ r ∈ collect_hosts [cStopped],
      r.host = "h.example" ∧ r.status = cStopped.status ∧ r.name = cStopped.name :=
  collect_hosts_status_never_excludes [cStopped] cStopped "h.example"
    (List.mem_singleton.mpr rfl) rfl (by decide)

/-- C1 (counterexample): the claim says the reload is invoked iff at least
one write occurred, and that a second pass with unchanged state performs
zero writes and zero reloads. On the second pass over `[recA]` the code
performs zero writes yet still invokes the reload once: `reconcile` calls
`reload_nginx()` unconditionally whenever discovery is non-empty; no
`any_changed` flag exists in the source. -/
theorem reconcile_second_pass_reloads_without_write_cex :
    (reconcile envA [recA] wAfterFirst).written = 0 ∧
    (reconcile envA [recA] wAfterFirst).reloaded = 1 := ⟨rfl, rfl⟩

/-- C1 (amended): over a non-empty discovery whose rendering succeeds, the
reload is invoked exactly once regardless of whether any write occurred;
a second pass with unchanged platform state performs zero file writes
(for pairwise-distinct hostnames) but still triggers one reload. -/
theorem reconcile_reload_ungated_second_pass_no_writes (env : Env)
    (hosts : List ExportRecord) (w : World) (hne : hosts ≠ [])
    (hok : ∀ e ∈ hosts, ∃ c, renderEntry env e = .ok c) :
    (reconcile env hosts w).reloaded = 1 ∧
    ((hosts.map ExportRecord.host).Nodup →
      (reconcile env hosts (reconcile env hosts w).world).written = 0 ∧
      (reconcile env hosts (reconcile env hosts w).world).reloaded = 1) := by
  have herr : (generate_nginx_conf env hosts w).err = none :=
    genLoop_err_none env hosts _ _ hok
  have h1 := reconcile_of_err_none env hosts w hne herr
  refine ⟨by rw [h1], ?_⟩
  intro hnd
  have hw1 : (reconcile env hosts w).world.configs
      = (genLoop env hosts { w with dirMade := true } 0).world.configs :=
    reconcile_configs_of_ok env hosts w hne herr
  have hgen2 : generate_nginx_conf env hosts (reconcile env hosts w).world
      = ⟨{ (reconcile env hosts w).world with dirMade := true }, 0, none⟩ := by
    show genLoop env hosts { (reconcile env hosts w).world with dirMade := true } 0 = _
    refine genLoop_nowrite env hosts _ 0 ?_
    intro e he
    obtain ⟨cur, r, hr, hl, hs⟩ :=
      genLoop_post env hosts { w with dirMade := true } 0 hnd hok e he
    refine ⟨cur, r, hr, ?_, hs⟩
    show lookupStore (reconcile env hosts w).world.configs e.host = some cur
    rw [hw1]
    exact hl
  have herr2 : (generate_nginx_conf env hosts (reconcile env hosts w).world).err = none := by
    rw [hgen2]
  have h2 := reconcile_of_err_none env hosts (reconcile env hosts w).world hne herr2
  constructor
  · rw [h2]
    show (generate_nginx_conf env hosts (reconcile env hosts w).world).written = 0
    rw [hgen2]
  · rw [h2]

/-- C1 witness: the amended theorem at the concrete single-host instance. -/
theorem reconcile_reload_ungated_second_pass_no_writes_witness :
    (reconcile envA [recA] w0).reloaded = 1 ∧
    ((([recA] : List ExportRecord).map ExportRecord.host).Nodup →
      (reconcile envA [recA] (reconcile envA [recA] w0).world).written = 0 ∧
      (reconcile envA [recA] (reconcile envA [recA] w0).world).reloaded = 1) :=
  reconcile_reload_ungated_second_pass_no_writes envA [recA] w0 (by decide)
    (by
      intro e he
      rw [List.mem_singleton] at he
      subst he
      exact ⟨"s=a i=1 p=8080", rfl⟩)

/-- C2 (counterexample): the claim says a certificate-issuance failure for
one host never prevents the remaining hosts from being checked and never
ends the pass with an uncaught error. With two hosts "a" and "b", both
lacking certificates, and certbot failing, the pass ends with an uncaught
`CalledProcessError` (`subprocess.run(..., check=True)` with no
try/except) after checking and attempting only "a": host "b" is never
consulted. -/
theorem issuance_failure_aborts_remaining_hosts_cex :
    (reconcile envB [recA, recB] w0).err.isSome = true ∧
    (reconcile envB [recA, recB] w0).world.certChecks = ["a"] ∧
    (reconcile envB [recA, recB] w0).world.certbotCalls = ["a"] := ⟨rfl, rfl, rfl⟩

/-- C2 (amended): a failing certbot invocation raises through
`obtain_certificates`, aborting the loop: when every host before `e`
survives (valid certificate or successful issuance) and `e`'s issuance
fails, the call returns an error and the recorded oracle consultations
stop exactly at `e` — hosts after `e` are neither checked nor issued. -/
theorem obtain_certificates_failure_aborts_pass (env : Env)
    (pre : List ExportRecord) (e : ExportRecord) (post : List ExportRecord)
    (w : World)
    (hpre : ∀ e' ∈ pre, cert_is_valid env e'.host = true ∨ env.issueOk e'.host = true)
    (hv : cert_is_valid env e.host = false) (hi : env.issueOk e.host = false) :
    (obtain_certificates env (pre ++ e :: post) w).2.isSome = true ∧
    (obtain_certificates env (pre ++ e :: post) w).1.certChecks =
      w.certChecks ++ pre.map (fun r => r.host) ++ [e.host] :=
  certLoop_abort env pre e post w hpre hv hi

/-- C2 witness: the amended theorem with an empty prefix, a failing host
"a" and a never-reached host "b". -/
theorem obtain_certificates_failure_aborts_pass_witness :
    (obtain_certificates envB ([] ++ recA :: [recB]) w0).2.isSome = true ∧
    (obtain_certificates envB ([] ++ recA :: [recB]) w0).1.certChecks =
      w0.certChecks ++ ([] : List ExportRecord).map (fun r => r.host) ++ [recA.host] :=
  obtain_certificates_failure_aborts_pass envB [] recA [recB] w0
    (by intro e' he'; simp at he') rfl rfl

/-- C3 (counterexample): the claim says a host no longer declared has no
config file remaining after a pass. Starting from a directory holding a
config for the undeclared host "old" and reconciling the single declared
host "a", the file for "old" is still present with its stale content:
`generate_nginx_conf` only creates and overwrites files, it never deletes
any. -/
theorem stale_config_persists_cex :
    lookupStore (reconcile envA [recA] wStale).world.configs "old" = some "stale" := rfl

/-- C3 (amended): the pass never removes config files: the config entry of
any host absent from the discovery result is left exactly as it was, so
the directory accumulates stale entries rather than mirroring declared
state. -/
theorem reconcile_never_removes_undeclared_configs (env : Env)
    (hosts : List ExportRecord) (w : World) (h : String)
    (hh : ∀ e ∈ hosts, e.host ≠ h) :
    lookupStore (reconcile env hosts w).world.configs h = lookupStore w.configs h := by
  cases hosts with
  | nil => rfl
  | cons e rest =>
    have hgen : lookupStore
        (genLoop env (e :: rest) { w with dirMade := true } 0).world.configs h
        = lookupStore w.configs h :=
      genLoop_lookup_ne env (e :: rest) _ _ h hh
    cases herr : (generate_nginx_conf env (e :: rest) w).err with
    | some msg =>
      rw [reconcile_of_err_some env (e :: rest) w msg (by simp) herr]
      exact hgen
    | none =>
      rw [reconcile_configs_of_ok env (e :: rest) w (by simp) herr]
      exact hgen

/-- C3 witness: the amended theorem at the stale-directory instance. -/
theorem reconcile_never_removes_undeclared_configs_witness :
    lookupStore (reconcile envA [recA] wStale).world.configs "old"
      = lookupStore wStale.configs "old" :=
  reconcile_never_removes_undeclared_configs envA [recA] wStale "old" (by decide)

/-- C6: when a discovery result contains two workloads `e1` and `e2`
declaring the same hostname (and no other workload declares it), with the
two rendered contents differing after trimming — which different addresses
produce under any template that mentions the address — the pass leaves
exactly one config entry for that hostname and its content is exactly the
rendering of the later-processed workload `e2`. -/
theorem duplicate_host_last_write_wins (env : Env) (w : World)
    (pre mid post : List ExportRecord) (e1 e2 : ExportRecord) (h : String)
    (r1 r2 : String)
    (hnd : (w.configs.map Prod.fst).Nodup)
    (h1 : e1.host = h) (h2 : e2.host = h)
    (hpre : ∀ e ∈ pre, e.host ≠ h) (hmid : ∀ e ∈ mid, e.host ≠ h)
    (hpost : ∀ e ∈ post, e.host ≠ h)
    (hok : ∀ e ∈ pre ++ e1 :: (mid ++ e2 :: post), ∃ c, renderEntry env e = .ok c)
    (hr1 : renderEntry env e1 = .ok r1) (hr2 : renderEntry env e2 = .ok r2)
    (hdiff : pystrip r1 ≠ pystrip r2) :
    lookupStore (reconcile env (pre ++ e1 :: (mid ++ e2 :: post)) w).world.configs h
      = some r2 ∧
    ((reconcile env (pre ++ e1 :: (mid ++ e2 :: post)) w).world.configs.filter
      (fun p => p.1 == h)).length = 1 := by
  subst h2
  have hok1 : ∀ x ∈ pre, ∃ c, renderEntry env x = .ok c :=
    fun x hx => hok x (by simp [hx])
  have hokmid : ∀ x ∈ mid, ∃ c, renderEntry env x = .ok c :=
    fun x hx => hok x (by simp [hx])
  have hLne : pre ++ e1 :: (mid ++ e2 :: post) ≠ [] := by simp
  have herr : (generate_nginx_conf env (pre ++ e1 :: (mid ++ e2 :: post)) w).err = none :=
    genLoop_err_none env _ _ _ hok
  have hconf := reconcile_configs_of_ok env (pre ++ e1 :: (mid ++ e2 :: post)) w hLne herr
  have hlook : lookupStore
      (reconcile env (pre ++ e1 :: (mid ++ e2 :: post)) w).world.configs e2.host
      = some r2 := by
    rw [hconf,
        genLoop_append env pre _ _ _ hok1,
        genLoop_cons env e1 _ _ _ r1 hr1,
        genLoop_append env mid _ _ _ hokmid,
        genLoop_cons env e2 _ _ _ r2 hr2,
        genLoop_lookup_ne env post _ _ e2.host hpost]
    apply reconcile_one_overwrite
    rw [genLoop_lookup_ne env mid _ _ e2.host hmid]
    refine Exists.imp ?_ (reconcile_one_lookup_self'
      (genLoop env pre { w with dirMade := true } 0).world e1.host r1 e2.host h1)
    intro cur hc
    exact ⟨hc.1, fun heq => hdiff (hc.2 ▸ heq)⟩
  have hnd2 : ((reconcile env (pre ++ e1 :: (mid ++ e2 :: post)) w).world.configs.map
      Prod.fst).Nodup := by
    rw [hconf]
    exact genLoop_keys_nodup env _ _ 0 hnd
  exact ⟨hlook, countKey_eq_one _ e2.host r2 hnd2 hlook⟩

/-- C6 witness: hosts `recA` (address 1) then `recA2` (address 2) both
declare "a"; afterwards the single entry for "a" holds the rendering of
`recA2`. -/
theorem duplicate_host_last_write_wins_witness :
    lookupStore (reconcile envA ([] ++ recA :: ([] ++ recA2 :: [])) w0).world.configs "a"
      = some "s=a i=2 p=8080" ∧
    ((reconcile envA ([] ++ recA :: ([] ++ recA2 :: [])) w0).world.configs.filter
      (fun p => p.1 == "a")).length = 1 :=
  duplicate_host_last_write_wins envA w0 [] [] [] recA recA2 "a"
    "s=a i=1 p=8080" "s=a i=2 p=8080"
    (by simp [w0]) rfl rfl (by simp) (by simp) (by simp)
    (by
      intro e he
      simp only [List.nil_append, List.mem_cons, List.not_mem_nil, or_false] at he
      rcases he with rfl | rfl
      · exact ⟨"s=a i=1 p=8080", rfl⟩
      · exact ⟨"s=a i=2 p=8080", rfl⟩)
    rfl rfl (by decide)


end Daemon
